import Mathlib

/-!
Shallow embedding of the PyQt drawing backend
(`src/ezdxf/addons/drawing/pyqt.py`) and proofs checking the
natural-language specification against it.

Machine reals of the source are modelled as rationals (`ℚ`), Python
strings as Lean `String`, Python exceptions as `Except`, and the
mutable caches as explicit state threaded through the functions.
External Qt resources (colors, pens, brushes, painter paths) are
modelled as inert value structures holding exactly the data the
source puts into them.
-/

/-- A Qt color resource, modelled as the specification string handed to
the `QColor` constructor (Qt is an external collaborator; the backend
only ever constructs colors from such strings). -/
structure QColor where
  spec : String
deriving DecidableEq, Repr

/-- The keys of the error taxonomy: the source raises `TypeError(color)`
for a malformed color string (the spec's `FormatError`) and
`ValueError` for an unknown path command (the spec's
`UnsupportedSegmentError`). -/
inductive DrawError where
  | typeError (color : String)
  | valueError (msg : String)
deriving DecidableEq, Repr

/-- The color cache `self._color_cache`, an insert-at-front association
list keyed by the original input string. -/
abbrev ColorCache : Type := List (String × QColor)

/-- Lookup in the color cache (`self._color_cache.get(color, None)`). -/
def cacheLookup (cache : ColorCache) (color : String) : Option QColor :=
  match cache with
  | [] => none
  | (k, v) :: rest => if k = color then some v else cacheLookup rest color

/-- `PyQtBackend._get_color`: validates the length of the color string,
normalizes 9-character `#RRGGBBAA` input to Qt's alpha-first
`#AARRGGBB` form, memoizes by the original input string, and raises
`TypeError` for any other length. Returns the resolved color together
with the updated cache. -/
def get_color (cache : ColorCache) (color : String) :
    Except DrawError (QColor × ColorCache) :=
  match cacheLookup cache color with
  | some qt_color => .ok (qt_color, cache)
  | none =>
    if color.length = 7 then
      let qt_color : QColor := ⟨color⟩
      .ok (qt_color, (color, qt_color) :: cache)
    else if color.length = 9 then
      let rgb := (color.toList.drop 1).take 6
      let alpha := (color.toList.drop 7).take 2
      let qt_color : QColor := ⟨String.mk ('#' :: (alpha ++ rgb))⟩
      .ok (qt_color, (color, qt_color) :: cache)
    else
      .error (.typeError color)

/-- `PyQtBackend._get_dash_pattern`, cache-miss computation: if the
pattern length is odd the last element is ignored (`end = -1`), then
every remaining dash is scaled and floored at `min_dash_length`.
(The surrounding memoization keyed by `hash((pattern, scale))` stores
exactly this value, so the cached result is the same function of the
arguments.) -/
def get_dash_pattern (pattern : List ℚ) (scale min_dash_length : ℚ) :
    List ℚ :=
  let e := if pattern.length % 2 = 1 then pattern.length - 1 else pattern.length
  (pattern.take e).map (fun dash => max (dash * scale) min_dash_length)

/-- Truncation toward zero, the behaviour of Python's `int()` on a
finite float. -/
def pyInt (q : ℚ) : ℤ :=
  if 0 ≤ q then ⌊q⌋ else ⌈q⌉

/-- `_map_weight` after the name-to-numeric lookup: the source computes
`int((weight / 10) + 10)` and clamps the result to `[0, 99]`. -/
def map_weight (weight : ℚ) : ℤ :=
  let value := pyInt (weight / 10 + 10)
  min (max 0 value) 99

/-- The weight-mapping formula exactly as the spec words it:
`clamp(round(weight/10) + 10, 0, 99)`, for comparison with
`map_weight` taken from the source. -/
def spec_map_weight (weight : ℚ) : ℤ :=
  min (max 0 (round (weight / 10) + 10)) 99

/-- Modelled from the spec: the configuration surface read by the
backend (held by the `Backend` base class, which is not part of the
embedded source): `point_size`, `lineweight_scaling`,
`linetype_scaling` (0 disables dashing entirely), `min_dash_length`,
and `show_hatch` (0 disables filled-region emission). -/
structure Config where
  point_size : ℚ
  lineweight_scaling : ℚ
  linetype_scaling : ℚ
  min_dash_length : ℚ
  show_hatch : ℤ

/-- The per-draw-call property set (`ezdxf.addons.drawing.properties`):
only the fields the embedded backend reads. The unit tag is kept as the
raw integer unit code of the source. -/
structure Properties where
  color : String
  lineweight : ℚ
  linetype_pattern : List ℚ
  linetype_scale : ℚ
  filling : Bool
  units : ℤ

/-- `PyQtBackend._get_line_pattern_factor`: `(750 if units in
IMPERIAL_UNITS else 30) * (self.linetype_scaling or 1.0)`.
`IMPERIAL_UNITS` lives outside the embedded source
(`ezdxf.units`), so the membership test `units in IMPERIAL_UNITS` is
abstracted as the predicate `imperial`, per the spec's "a set/tag of
imperial unit codes used solely to pick the dash-pattern scaling
constant". -/
def get_line_pattern_factor (cfg : Config) (imperial : ℤ → Bool)
    (units : ℤ) : ℚ :=
  let scale := if cfg.linetype_scaling = 0 then 1 else cfg.linetype_scaling
  (if imperial units then 750 else 30) * scale

/-- The pen join style set by the source (`qc.Qt.RoundJoin`). -/
inductive JoinStyle where
  | roundJoin
deriving DecidableEq, Repr

/-- A Qt pen as configured by `_get_pen`: resolved color, width in
pixels, cosmetic flag, join style, and the dash pattern (`none` means
the solid default is kept). -/
structure QPen where
  color : QColor
  width : ℚ
  cosmetic : Bool
  join : JoinStyle
  dash : Option (List ℚ)
deriving DecidableEq, Repr

/-- A Qt brush: either the `NoBrush` sentinel or a solid fill in a
resolved color. -/
inductive QBrush where
  | noBrush
  | solid (color : QColor)
deriving DecidableEq, Repr

/-- `PyQtBackend._get_pen`: pixel width `lineweight / 0.3527 *
lineweight_scaling`, cosmetic, round join; a dash pattern is applied
only when the property set's pattern has more than one element and the
`linetype_scaling` knob is non-zero, with dash scale
`properties.linetype_scale * pattern_factor`. Color resolution may
raise, which propagates. -/
def get_pen (cfg : Config) (imperial : ℤ → Bool) (cache : ColorCache)
    (props : Properties) : Except DrawError (QPen × ColorCache) :=
  match get_color cache props.color with
  | .error e => .error e
  | .ok (c, cache') =>
    let px := props.lineweight / (3527 / 10000) * cfg.lineweight_scaling
    let pen : QPen :=
      { color := c, width := px, cosmetic := true,
        join := .roundJoin, dash := none }
    if props.linetype_pattern.length > 1 ∧ cfg.linetype_scaling ≠ 0 then
      let pattern_factor := get_line_pattern_factor cfg imperial props.units
      .ok ({ pen with dash := some (get_dash_pattern
                props.linetype_pattern
                (props.linetype_scale * pattern_factor)
                cfg.min_dash_length) }, cache')
    else
      .ok (pen, cache')

/-- `PyQtBackend._get_brush`: solid fill in the resolved color when
`properties.filling` is set, else the shared `NoBrush` sentinel. -/
def get_brush (cache : ColorCache) (props : Properties) :
    Except DrawError (QBrush × ColorCache) :=
  if props.filling then
    match get_color cache props.color with
    | .error e => .error e
    | .ok (c, cache') => .ok (.solid c, cache')
  else
    .ok (.noBrush, cache)

/-- A 2D point (the source only reads `.x` and `.y` of its vectors). -/
structure Vec2 where
  x : ℚ
  y : ℚ
deriving DecidableEq, Repr

/-- Modelled from the spec: the 4x4 transform type (`ezdxf.math.Matrix44`,
not part of the embedded source) "reducible to a 2D affine map
(translation + 2x2 linear part)". Row-vector convention as in the
source's `_matrix_to_qtransform` comment: points are row vectors, so in
`A @ B` the map `A` applies first. -/
structure Affine2 where
  m11 : ℚ
  m12 : ℚ
  m21 : ℚ
  m22 : ℚ
  dx : ℚ
  dy : ℚ
deriving DecidableEq, Repr

/-- Apply an affine map to a point (row-vector convention:
`p' = p @ M`). -/
def Affine2.apply (t : Affine2) (p : Vec2) : Vec2 :=
  ⟨p.x * t.m11 + p.y * t.m21 + t.dx,
   p.x * t.m12 + p.y * t.m22 + t.dy⟩

/-- Composition `a @ b` (matrix product; with row vectors `a` applies
first, then `b`). -/
def Affine2.comp (a b : Affine2) : Affine2 :=
  ⟨a.m11 * b.m11 + a.m12 * b.m21,
   a.m11 * b.m12 + a.m12 * b.m22,
   a.m21 * b.m11 + a.m22 * b.m21,
   a.m21 * b.m12 + a.m22 * b.m22,
   a.dx * b.m11 + a.dy * b.m21 + b.dx,
   a.dx * b.m12 + a.dy * b.m22 + b.dy⟩

/-- Modelled from the spec: `Matrix44.scale(sx, sy, 0)` restricted to
its 2D part (the z axis never reaches the 2D conversion in
`_matrix_to_qtransform`). -/
def scaleMatrix (sx sy : ℚ) : Affine2 :=
  ⟨sx, 0, 0, sy, 0, 0⟩

/-- A path command of `ezdxf.render.Path` as consumed by
`_extend_qt_path`: `LINE_TO`, `CURVE_TO`, or any other command kind
(the `else` branch of the source), tagged by its raw type code. -/
inductive PathCommand where
  | lineTo (endp : Vec2)
  | curveTo (ctrl1 ctrl2 endp : Vec2)
  | other (tag : ℤ)
deriving DecidableEq, Repr

/-- An input path: a start point plus a command sequence
(`path.start`, iteration over `path`). -/
structure PyPath where
  start : Vec2
  commands : List PathCommand
deriving DecidableEq, Repr

/-- An element of a `QPainterPath` as built by `_extend_qt_path`. -/
inductive QtPathElem where
  | moveTo (x y : ℚ)
  | lineTo (x y : ℚ)
  | cubicTo (c1x c1y c2x c2y ex ey : ℚ)
deriving DecidableEq, Repr

/-- The conversion of one supported path command to its Qt counterpart;
`none` for an unsupported command kind. -/
def convertCommand : PathCommand → Option QtPathElem
  | .lineTo e => some (.lineTo e.x e.y)
  | .curveTo c1 c2 e => some (.cubicTo c1.x c1.y c2.x c2.y e.x e.y)
  | .other _ => none

/-- The command loop of `_extend_qt_path`: each command is converted in
order and appended to the accumulated Qt path; an unknown command kind
raises `ValueError` immediately. -/
def extendGo (acc : List QtPathElem) :
    List PathCommand → Except DrawError (List QtPathElem)
  | [] => .ok acc
  | cmd :: rest =>
    match convertCommand cmd with
    | some e => extendGo (acc ++ [e]) rest
    | none => .error (.valueError "Unknown path command")

/-- `_extend_qt_path`: `moveTo(path.start)`, then the command loop over
the path's command sequence. The accumulator is the Qt path being
extended. -/
def extend_qt_path (qt_path : List QtPathElem) (path : PyPath) :
    Except DrawError (List QtPathElem) :=
  extendGo (qt_path ++ [.moveTo path.start.x path.start.y]) path.commands

/-- The pen state of a scene item that was given an explicit
"no pen" style (`qc.Qt.NoPen`), versus a real pen. -/
inductive PenStyle where
  | noPen
  | pen (p : QPen)
deriving DecidableEq, Repr

/-- A primitive emitted to the `QGraphicsScene` sink, carrying exactly
the styling data the source hands to the scene. -/
inductive SceneItem where
  | pointItem (x y radius : ℚ) (brush : QBrush) (pen : PenStyle)
  | pathItem (path : List QtPathElem) (pen : PenStyle) (brush : QBrush)
  | textPathItem (points : List Vec2) (pen : PenStyle) (color : QColor)
deriving DecidableEq, Repr

/-- `PyQtBackend.draw_point`: one cosmetic point item with radius
`self.point_size * 0.5`, a solid brush in the resolved entity color,
and (from `_Point.__init__`) a `NoPen` pen. Only `properties.color`
is read. -/
def draw_point (cfg : Config) (cache : ColorCache) (pos : Vec2)
    (props : Properties) : Except DrawError (List SceneItem × ColorCache) :=
  match get_color cache props.color with
  | .error e => .error e
  | .ok (c, cache') =>
    .ok ([.pointItem pos.x pos.y (cfg.point_size * (1 / 2))
            (.solid c) .noPen], cache')

/-- `PyQtBackend.draw_filled_paths`: skipped entirely when
`self.show_hatch == 0`; otherwise builds one Qt path from the outer
boundaries forced counter-clockwise and the holes forced clockwise,
and emits one path item with the resolved pen and brush. The
winding-forcing operations `Path.counter_clockwise` and
`Path.clockwise` live outside the embedded source and are abstracted
as the parameters `ccw` and `cw` (modelled from the spec: "paths as
outer boundaries (forced counter-clockwise winding)" and "holes as
hole boundaries (forced clockwise winding)"). -/
def draw_filled_paths (cfg : Config) (imperial : ℤ → Bool)
    (ccw cw : PyPath → PyPath) (cache : ColorCache)
    (paths holes : List PyPath) (props : Properties) :
    Except DrawError (List SceneItem × ColorCache) :=
  if cfg.show_hatch = 0 then
    .ok ([], cache)
  else
    match (paths.map ccw ++ holes.map cw).foldlM extend_qt_path [] with
    | .error e => .error e
    | .ok qt_path =>
      match get_pen cfg imperial cache props with
      | .error e => .error e
      | .ok (pen, cache') =>
        match get_brush cache' props with
        | .error e => .error e
        | .ok (brush, cache'') =>
          .ok ([.pathItem qt_path (.pen pen) brush], cache'')

/-- Python's `not text.strip()`: true iff the string is empty after
trimming whitespace, i.e. every character is whitespace. -/
def isBlank (s : String) : Bool :=
  s.toList.all Char.isWhitespace

/-- The font measurements structure used by the backend
(`ezdxf.addons.drawing.text.FontMeasurements`, outside the embedded
source; modelled from the spec: "baseline offset, cap-height,
x-height, descender-height"). -/
structure FontMeasurements where
  baseline : ℚ
  cap_height : ℚ
  x_height : ℚ
  descender_height : ℚ
deriving DecidableEq, Repr

/-- `TextRenderer.get_scale`: `desired_cap_height /
measurements.cap_height` for the resolved font's measurements. -/
def get_scale (desired_cap_height : ℚ) (measurements : FontMeasurements) :
    ℚ :=
  desired_cap_height / measurements.cap_height

/-- `PyQtBackend.draw_text`: blank text (empty after trimming
whitespace) emits nothing and raises nothing; otherwise the glyph
outline of the normalized text is mapped through
`Matrix44.scale(scale, -scale, 0) @ transform` with `scale =
get_scale(cap_height, font_measurements)`, and one path item is
emitted with no pen and the resolved color. The external text shaping
(`TextRenderer.get_text_path`, Qt's `QPainterPath.addText`) is
abstracted as the already-shaped outline point list `outline`, and the
resolved font's measurements as `measurements`. -/
def draw_text (cache : ColorCache) (text : String) (transform : Affine2)
    (props : Properties) (cap_height : ℚ)
    (measurements : FontMeasurements) (outline : List Vec2) :
    Except DrawError (List SceneItem × ColorCache) :=
  if isBlank text then
    .ok ([], cache)
  else
    let scale := get_scale cap_height measurements
    let combined := (scaleMatrix scale (-scale)).comp transform
    let mapped := outline.map combined.apply
    match get_color cache props.color with
    | .error e => .error e
    | .ok (c, cache') =>
      .ok ([.textPathItem mapped .noPen c], cache')

/-- `PyQtBackend.get_text_line_width`: returns 0 for blank text before
any font resolution or shaping; otherwise `get_text_rect(text,
qfont).right() * scale`. The right edge of the shaped text's bounding
rectangle is abstracted as `rect_right`; the second component records
whether shaping was invoked. -/
def get_text_line_width (text : String) (cap_height : ℚ)
    (measurements : FontMeasurements) (rect_right : ℚ) : ℚ × Bool :=
  if isBlank text then
    (0, false)
  else
    (rect_right * get_scale cap_height measurements, true)

/-- The unit pattern factor exactly as the spec words it: the
unit-system constant divided by the overall linetype-scaling
configuration knob (defaulting to 1 when zero), for comparison with
`get_line_pattern_factor` taken from the source. -/
def spec_line_pattern_factor (cfg : Config) (imperial : ℤ → Bool)
    (units : ℤ) : ℚ :=
  (if imperial units then 750 else 30) /
    (if cfg.linetype_scaling = 0 then 1 else cfg.linetype_scaling)

/-- C5: for every dash pattern and scale, the resolved pattern drops
exactly the last element when the pattern length is odd (so the result
always has even length), and every resolved element equals the original
length multiplied by the scale, floored below at the configured minimum
dash length, hence every resolved value is at least `min_dash_length`. -/
theorem dash_pattern_resolution (pattern : List ℚ) (scale minLen : ℚ) :
    get_dash_pattern pattern scale minLen =
      (if pattern.length % 2 = 1 then pattern.dropLast else pattern).map
        (fun dash => max (dash * scale) minLen) ∧
    (get_dash_pattern pattern scale minLen).length % 2 = 0 ∧
    ∀ x ∈ get_dash_pattern pattern scale minLen, minLen ≤ x := by
  unfold get_dash_pattern
  refine ⟨?_, ?_, ?_⟩
  · by_cases h : pattern.length % 2 = 1 <;>
      simp [h, List.dropLast_eq_take]
  · by_cases h : pattern.length % 2 = 1 <;>
      simp [h] <;> omega
  · intro x hx
    simp only [List.mem_map] at hx
    obtain ⟨a, -, rfl⟩ := hx
    exact le_max_right _ _

/-- C2 counterexample: at weight 15 the source's mapping
`int(weight / 10 + 10)` gives 11, while the spec's formula
`clamp(round(weight/10) + 10, 0, 99)` gives 12. -/
theorem weight_mapping_cex :
    map_weight 15 = 11 ∧ spec_map_weight 15 = 12 ∧
    map_weight 15 ≠ spec_map_weight 15 := by
  have h1 : map_weight 15 = 11 := by
    norm_num [map_weight, pyInt]
  have h2 : spec_map_weight 15 = 12 := by
    norm_num [spec_map_weight, round_eq]
  exact ⟨h1, h2, by rw [h1, h2]; decide⟩

/-- C2 (amended): for every nonnegative supplied font weight (after
name-to-numeric lookup when the weight is a named level), the mapped
renderer weight equals `clamp(floor(weight/10) + 10, 0, 99)`
(truncation, not rounding); in particular the mapping sends 1000 to
99, 400 to 50, and 0 to a value at most 10. -/
theorem weight_mapping (weight : ℚ) (h : 0 ≤ weight) :
    map_weight weight = min (max 0 (⌊weight / 10⌋ + 10)) 99 ∧
    map_weight 1000 = 99 ∧ map_weight 400 = 50 ∧ map_weight 0 ≤ 10 := by
  refine ⟨?_, by norm_num [map_weight, pyInt], by norm_num [map_weight, pyInt],
    by norm_num [map_weight, pyInt]⟩
  unfold map_weight pyInt
  have h10 : (0:ℚ) ≤ weight / 10 + 10 := by positivity
  rw [if_pos h10]
  have : ⌊weight / 10 + 10⌋ = ⌊weight / 10⌋ + 10 := by
    have := Int.floor_add_int (weight / 10) 10
    push_cast at this
    exact_mod_cast this
  rw [this]

theorem weight_mapping_witness :
    (0:ℚ) ≤ 15 ∧ map_weight 15 = min (max 0 (⌊(15:ℚ) / 10⌋ + 10)) 99 :=
  ⟨by norm_num, (weight_mapping 15 (by norm_num)).1⟩

/-- C3: on a cache miss, a color string whose length is neither 7 nor 9
makes color resolution fail with the malformed-color error
(`TypeError` in the source, the spec's `FormatError`), and a string of
length 7 or 9 resolves without error. -/
theorem color_length_validation (color : String) (cache : ColorCache)
    (hmiss : cacheLookup cache color = none) :
    ((color.length ≠ 7 ∧ color.length ≠ 9) →
      get_color cache color = .error (.typeError color)) ∧
    ((color.length = 7 ∨ color.length = 9) →
      ∃ q cache', get_color cache color = .ok (q, cache')) := by
  unfold get_color
  rw [hmiss]
  constructor
  · rintro ⟨h7, h9⟩
    simp [h7, h9]
  · rintro (h7 | h9)
    · exact ⟨⟨color⟩, (color, ⟨color⟩) :: cache, by simp [h7]⟩
    · by_cases h7 : color.length = 7
      · exact ⟨⟨color⟩, (color, ⟨color⟩) :: cache, by simp [h7]⟩
      · refine ⟨⟨String.mk ('#' :: ((color.toList.drop 7).take 2 ++
          (color.toList.drop 1).take 6))⟩,
          (color, ⟨String.mk ('#' :: ((color.toList.drop 7).take 2 ++
          (color.toList.drop 1).take 6))⟩) :: cache, ?_⟩
        simp [h7, h9]

theorem color_length_validation_witness :
    get_color [] "#ab" = .error (.typeError "#ab") ∧
    ∃ q cache', get_color [] "#123456" = .ok (q, cache') :=
  ⟨(color_length_validation "#ab" [] rfl).1 (by decide),
   (color_length_validation "#123456" [] rfl).2 (Or.inl (by decide))⟩

/-- C9: color resolution is deterministic — resolving a string that the
cache already holds (in particular, resolving the same input a second
time) returns the very cache entry stored by the first resolution —
and on a cache miss a 9-character input resolves to the color decoded
from the alpha-first normalized form (trailing 2-character alpha field
moved to the front, after the leading marker). -/
theorem color_resolution_normalized (color : String) (cache : ColorCache) :
    (∀ q cache', get_color cache color = .ok (q, cache') →
      get_color cache' color = .ok (q, cache')) ∧
    (color.length = 9 → cacheLookup cache color = none →
      get_color cache color = .ok
        (⟨String.mk ('#' :: ((color.toList.drop 7).take 2 ++
            (color.toList.drop 1).take 6))⟩,
         (color, ⟨String.mk ('#' :: ((color.toList.drop 7).take 2 ++
            (color.toList.drop 1).take 6))⟩) :: cache)) := by
  constructor
  · intro q cache' hok
    unfold get_color at hok ⊢
    cases hcl : cacheLookup cache color with
    | some q0 =>
      rw [hcl] at hok
      simp only [Except.ok.injEq, Prod.mk.injEq] at hok
      obtain ⟨rfl, rfl⟩ := hok
      simp [hcl]
    | none =>
      rw [hcl] at hok
      split_ifs at hok with h7 h9
      · simp only [Except.ok.injEq, Prod.mk.injEq] at hok
        obtain ⟨rfl, rfl⟩ := hok
        simp [cacheLookup]
      · simp only [Except.ok.injEq, Prod.mk.injEq] at hok
        obtain ⟨rfl, rfl⟩ := hok
        simp [cacheLookup]
  · intro h9 hmiss
    have h7 : ¬ color.length = 7 := by omega
    unfold get_color
    rw [hmiss]
    simp [h7, h9]

theorem color_resolution_normalized_witness :
    get_color [] "#1122334a" =
      .ok (⟨"#4a112233"⟩, [("#1122334a", ⟨"#4a112233"⟩)]) ∧
    get_color [("#1122334a", ⟨"#4a112233"⟩)] "#1122334a" =
      .ok (⟨"#4a112233"⟩, [("#1122334a", ⟨"#4a112233"⟩)]) := by
  have h := color_resolution_normalized "#1122334a" []
  have h1 : get_color [] "#1122334a" =
      .ok (⟨"#4a112233"⟩, [("#1122334a", ⟨"#4a112233"⟩)]) :=
    (h.2 (by decide) rfl).trans rfl
  exact ⟨h1, h.1 _ _ h1⟩

/-- C1 counterexample: with the linetype-scaling knob set to 2, metric
units, `linetype_scale = 1` and `min_dash_length = 0`, the code
resolves the pattern `[1, 2]` with dash scale `1 * (30 * 2) = 60`
(the unit constant multiplied by the knob), giving `[60, 120]`; the
spec's formula (unit constant divided by the knob) gives scale
`1 * (30 / 2) = 15` and pattern `[15, 30]`. -/
theorem dash_scale_knob_cex :
    get_pen ⟨1, 1, 2, 0, 1⟩ (fun _ => false) []
        ⟨"#000000", 1, [1, 2], 1, false, 0⟩ =
      .ok ({ color := ⟨"#000000"⟩, width := 10000 / 3527, cosmetic := true,
             join := .roundJoin, dash := some [60, 120] },
           [("#000000", ⟨"#000000"⟩)]) ∧
    get_dash_pattern [1, 2]
        (1 * spec_line_pattern_factor ⟨1, 1, 2, 0, 1⟩ (fun _ => false) 0) 0 =
      [15, 30] ∧
    ([(60 : ℚ), 120] : List ℚ) ≠ [15, 30] := by
  refine ⟨?_, ?_, by norm_num⟩
  · norm_num [get_pen, get_color, cacheLookup, get_dash_pattern,
      get_line_pattern_factor]
    rfl
  · norm_num [get_dash_pattern, spec_line_pattern_factor]

/-- C1 (amended): for every draw call with a dash pattern of more than
one element and a non-zero linetype-scaling knob, the scale passed to
dash-pattern resolution equals the property set's `linetype_scale`
times a unit pattern factor, where the unit pattern factor is the
unit-system constant (750 imperial, 30 metric) MULTIPLIED BY the
overall linetype-scaling configuration knob (the source's
`linetype_scaling or 1.0`, which under the non-zero condition is the
knob itself), not divided by it. -/
theorem dash_scale_knob (cfg : Config) (imperial : ℤ → Bool)
    (cache : ColorCache) (props : Properties)
    (hlen : props.linetype_pattern.length > 1)
    (hknob : cfg.linetype_scaling ≠ 0) :
    ∀ pen cache', get_pen cfg imperial cache props = .ok (pen, cache') →
      pen.dash = some (get_dash_pattern props.linetype_pattern
        (props.linetype_scale *
          ((if imperial props.units then 750 else 30) *
            cfg.linetype_scaling))
        cfg.min_dash_length) := by
  intro pen cache' hok
  unfold get_pen at hok
  cases hc : get_color cache props.color with
  | error e => simp [hc] at hok
  | ok r =>
    obtain ⟨c, cacheA⟩ := r
    simp only [hc] at hok
    rw [if_pos ⟨hlen, hknob⟩] at hok
    simp only [Except.ok.injEq, Prod.mk.injEq] at hok
    obtain ⟨rfl, rfl⟩ := hok
    simp [get_line_pattern_factor, if_neg hknob]

theorem dash_scale_knob_witness :
    ∃ pen cache',
      get_pen ⟨1, 1, 2, 0, 1⟩ (fun _ => false) []
          ⟨"#000000", 1, [1, 2], 1, false, 0⟩ = .ok (pen, cache') ∧
      pen.dash = some (get_dash_pattern [1, 2] (1 * (30 * 2)) 0) := by
  refine ⟨_, _, rfl, ?_⟩
  exact dash_scale_knob ⟨1, 1, 2, 0, 1⟩ (fun _ => false) []
    ⟨"#000000", 1, [1, 2], 1, false, 0⟩ (by decide) (by norm_num) _ _ rfl

/-- Helper: closed form of the command loop of `_extend_qt_path`. -/
theorem extendGo_spec (cmds : List PathCommand) (acc : List QtPathElem) :
    extendGo acc cmds =
      if cmds.all (fun c => (convertCommand c).isSome) then
        .ok (acc ++ cmds.filterMap convertCommand)
      else
        .error (.valueError "Unknown path command") := by
  induction cmds generalizing acc with
  | nil => simp [extendGo]
  | cons cmd rest ih =>
    cases hc : convertCommand cmd with
    | some e =>
      simp [extendGo, hc, ih, List.filterMap_cons]
    | none =>
      simp [extendGo, hc]

/-- C4: for every open path drawn, segments of kind line and cubic
curve are converted to the corresponding sink segments (after the
initial `moveTo` of the path's start), and a path containing any
segment kind outside the set of line and cubic-curve segments fails
with the fatal unsupported-segment error (`ValueError` in the source),
propagated immediately. -/
theorem open_path_conversion (qt_path : List QtPathElem) (path : PyPath) :
    extend_qt_path qt_path path =
      if path.commands.all (fun c => (convertCommand c).isSome) then
        .ok ((qt_path ++ [.moveTo path.start.x path.start.y]) ++
          path.commands.filterMap convertCommand)
      else
        .error (.valueError "Unknown path command") := by
  unfold extend_qt_path
  exact extendGo_spec path.commands _

/-- C8: for every filled-region draw call made while the `show_hatch`
configuration flag is zero, zero primitives are emitted and no error
is raised, regardless of non-empty `paths` and `holes` input. -/
theorem filled_paths_hidden (cfg : Config) (imperial : ℤ → Bool)
    (ccw cw : PyPath → PyPath) (cache : ColorCache)
    (paths holes : List PyPath) (props : Properties)
    (h : cfg.show_hatch = 0) :
    draw_filled_paths cfg imperial ccw cw cache paths holes props =
      .ok ([], cache) := by
  unfold draw_filled_paths
  rw [if_pos h]

theorem filled_paths_hidden_witness :
    draw_filled_paths ⟨1, 1, 1, 0, 0⟩ (fun _ => false) id id []
        [⟨⟨0, 0⟩, [.other 5]⟩] [⟨⟨1, 1⟩, []⟩]
        ⟨"#000000", 1, [], 1, true, 0⟩ =
      .ok ([], []) :=
  filled_paths_hidden ⟨1, 1, 1, 0, 0⟩ (fun _ => false) id id []
    [⟨⟨0, 0⟩, [.other 5]⟩] [⟨⟨1, 1⟩, []⟩]
    ⟨"#000000", 1, [], 1, true, 0⟩ rfl

/-- Helper: composing the pure scale map `Scale(s, -s)` with any affine
transform (scale first, row-vector convention) maps a point to the
transform applied to the scaled, Y-negated point. -/
theorem scale_comp_apply (s : ℚ) (t : Affine2) (q : Vec2) :
    ((scaleMatrix s (-s)).comp t).apply q =
      t.apply ⟨s * q.x, -(s * q.y)⟩ := by
  simp only [scaleMatrix, Affine2.comp, Affine2.apply, Vec2.mk.injEq]
  constructor <;> ring

/-- C6: for every non-blank text draw call, the text scale equals the
desired cap height divided by the measured cap height of the resolved
font, and the emitted outline is every outline point mapped through
`Scale(scale, -scale, 0)` composed with the caller's transform —
i.e. scaled and Y-negated before the external transform applies. -/
theorem text_scale_and_transform (cache : ColorCache) (text : String)
    (transform : Affine2) (props : Properties) (cap_height : ℚ)
    (m : FontMeasurements) (outline : List Vec2) (c : QColor)
    (cacheC : ColorCache)
    (hblank : isBlank text = false)
    (hcolor : get_color cache props.color = .ok (c, cacheC)) :
    get_scale cap_height m = cap_height / m.cap_height ∧
    draw_text cache text transform props cap_height m outline =
      .ok ([.textPathItem (outline.map fun q => transform.apply
              ⟨(cap_height / m.cap_height) * q.x,
               -((cap_height / m.cap_height) * q.y)⟩)
            .noPen c], cacheC) := by
  refine ⟨rfl, ?_⟩
  unfold draw_text
  rw [hblank]
  simp only [Bool.false_eq_true, if_false, hcolor]
  have hmap : ((scaleMatrix (get_scale cap_height m)
        (-get_scale cap_height m)).comp transform).apply =
      fun q : Vec2 => transform.apply
        ⟨(cap_height / m.cap_height) * q.x,
         -((cap_height / m.cap_height) * q.y)⟩ := by
    funext q
    rw [scale_comp_apply (get_scale cap_height m) transform q]
    simp [get_scale]
  rw [hmap]

theorem text_scale_and_transform_witness :
    get_scale 5 ⟨0, 10, 0, 0⟩ = 5 / 10 ∧
    draw_text [] "A" ⟨1, 0, 0, 1, 0, 0⟩ ⟨"#000000", 1, [], 1, false, 0⟩
        5 ⟨0, 10, 0, 0⟩ [⟨1, 2⟩] =
      .ok ([.textPathItem ([(⟨1, 2⟩ : Vec2)].map fun q =>
              Affine2.apply ⟨1, 0, 0, 1, 0, 0⟩
                ⟨(5 / 10) * q.x, -((5 / 10) * q.y)⟩)
            .noPen ⟨"#000000"⟩],
           [("#000000", ⟨"#000000"⟩)]) :=
  text_scale_and_transform [] "A" ⟨1, 0, 0, 1, 0, 0⟩
    ⟨"#000000", 1, [], 1, false, 0⟩ 5 ⟨0, 10, 0, 0⟩ [⟨1, 2⟩]
    ⟨"#000000"⟩ [("#000000", ⟨"#000000"⟩)] (by decide) rfl

/-- C7: for every text that is empty after trimming whitespace, the
text draw operation emits no primitive and raises no error, and the
line-width measurement returns 0 without invoking shaping (the second
component of the result records whether shaping ran). -/
theorem blank_text_noop (cache : ColorCache) (text : String)
    (transform : Affine2) (props : Properties) (cap_height : ℚ)
    (m : FontMeasurements) (outline : List Vec2) (rect_right : ℚ)
    (hblank : isBlank text = true) :
    draw_text cache text transform props cap_height m outline =
      .ok ([], cache) ∧
    get_text_line_width text cap_height m rect_right = (0, false) := by
  unfold draw_text get_text_line_width
  rw [hblank]
  exact ⟨rfl, rfl⟩

theorem blank_text_noop_witness :
    draw_text [] "  " ⟨1, 0, 0, 1, 0, 0⟩ ⟨"#000000", 1, [], 1, false, 0⟩
        5 ⟨0, 10, 0, 0⟩ [⟨1, 2⟩] = .ok ([], []) ∧
    get_text_line_width "  " 5 ⟨0, 10, 0, 0⟩ 7 = (0, false) :=
  blank_text_noop [] "  " ⟨1, 0, 0, 1, 0, 0⟩
    ⟨"#000000", 1, [], 1, false, 0⟩ 5 ⟨0, 10, 0, 0⟩ [⟨1, 2⟩] 7 (by decide)

/-- C10: for every point draw call, exactly one point primitive is
emitted, with radius `point_size * 0.5`, filled solid in the resolved
entity color and stroked with no pen; the result is independent of the
property set's filling flag, lineweight, and linetype pattern and
scale. -/
theorem point_emission (cfg : Config) (cache : ColorCache) (pos : Vec2)
    (props : Properties) (fil : Bool) (lw : ℚ) (pat : List ℚ)
    (lts : ℚ) :
    draw_point cfg cache pos
        ⟨props.color, lw, pat, lts, fil, props.units⟩ =
      draw_point cfg cache pos props ∧
    ∀ q cacheC, get_color cache props.color = .ok (q, cacheC) →
      draw_point cfg cache pos props =
        .ok ([.pointItem pos.x pos.y (cfg.point_size * (1 / 2))
                (.solid q) .noPen], cacheC) := by
  constructor
  · rfl
  · intro q cacheC h
    unfold draw_point
    rw [h]

theorem point_emission_witness :
    draw_point ⟨2, 1, 1, 0, 1⟩ [] ⟨3, 4⟩
        ⟨"#112233", 9, [1, 2, 3], 7, true, 0⟩ =
      .ok ([.pointItem 3 4 (2 * (1 / 2)) (.solid ⟨"#112233"⟩) .noPen],
           [("#112233", ⟨"#112233"⟩)]) := by
  have h := point_emission ⟨2, 1, 1, 0, 1⟩ [] ⟨3, 4⟩
    ⟨"#112233", 0, [], 1, false, 0⟩ true 9 [1, 2, 3] 7
  exact h.1.trans (h.2 ⟨"#112233"⟩ [("#112233", ⟨"#112233"⟩)] rfl)
